import Mathlib

/-!
Shallow embedding of the `remainder_three_fsm` repository: the generic
deterministic finite-state-machine engine (`fsm.py`) and the modulo-3
binary-string automaton built on top of it (`mod_three.py`).

Python exceptions are modelled as values of `PyErr`; raising is modelled by
returning `Except.error`.  Python sets and dicts are modelled as lists (sets
are only used for membership tests; dicts preserve insertion order, which the
validation loop iterates in).  The mutable `current_state` field is modelled
by explicit state passing: operations return the updated machine.
-/

/-- The exception classes raised by the repository: `FSMError` (fsm.py),
`ModThreeFSMError` (mod_three.py), and Python's built-in `KeyError`
(reachable in principle from the `_state_to_remainder` dict indexing). -/
inductive PyErr where
  | fsmError (msg : String)
  | modThreeFSMError (msg : String)
  | keyError (key : String)
deriving DecidableEq, Repr

/-- Python dict lookup `m[k]` / `k in m`, on an insertion-ordered entry list. -/
def dictLookup {α β : Type} [DecidableEq α] : List (α × β) → α → Option β
  | [], _ => none
  | (k, v) :: rest, key => if key = k then some v else dictLookup rest key

/-- The `FSM` class of `fsm.py`: the five-tuple definition plus the one
mutable field `current_state`. -/
@[ext]
structure FSM where
  states : List String
  alphabet : List Char
  transition_map : List ((String × Char) × String)
  initial_state : String
  final_states : List String
  current_state : String
deriving DecidableEq, Repr

/-- Message of the invalid-symbol error raised by `FSM.transition`. -/
def invalidSymbolMsg (symbol : Char) (alphabet : List Char) : String :=
  ("Symbol \x27" ++ symbol.toString) ++ ("\x27 not in alphabet " ++ toString alphabet)

/-- Message of the undefined-transition error raised by `FSM.transition`. -/
def undefinedTransitionMsg (state : String) (symbol : Char) : String :=
  ("No transition defined for state \x27" ++ state) ++
    ("\x27 with input \x27" ++ symbol.toString ++ "\x27")

/-- Message of the rejection error raised by `FSM.process`. -/
def rejectedMsg (state : String) (final_states : List String) : String :=
  ("Input string rejected: final state \x27" ++ state) ++
    ("\x27 is not in final states " ++ toString final_states)

/-- Message wrapping a per-symbol failure with its zero-based position,
raised by the loop in `FSM.process`. -/
def positionMsg (i : Nat) (symbol : Char) (inner : String) : String :=
  ("Error at position " ++ toString i) ++
    (" while processing \x27" ++ symbol.toString ++ "\x27: " ++ inner)

/-- The transition-map validation loop at the end of
`FSM._validate_fsm_configuration`, iterating entries in insertion order. -/
def validateTransitionEntries (states : List String) (alphabet : List Char) :
    List ((String × Char) × String) → Except PyErr Unit
  | [] => .ok ()
  | ((state, symbol), next_state) :: rest =>
    if state ∉ states then
      .error (.fsmError (("State \x27" ++ state) ++ ("\x27 in transition map not in states set")))
    else if symbol ∉ alphabet then
      .error (.fsmError (("Symbol \x27" ++ symbol.toString) ++
        ("\x27 in transition map not in alphabet")))
    else if next_state ∉ states then
      .error (.fsmError (("Next state \x27" ++ next_state) ++
        ("\x27 in transition map not in states set")))
    else validateTransitionEntries states alphabet rest

/-- `FSM._validate_fsm_configuration`: the five checks, in source order. -/
def _validate_fsm_configuration (states : List String) (alphabet : List Char)
    (transition_map : List ((String × Char) × String)) (initial_state : String)
    (final_states : List String) : Except PyErr Unit :=
  if states = [] then .error (.fsmError ("States set cannot be empty"))
  else if alphabet = [] then .error (.fsmError ("Alphabet set cannot be empty"))
  else if initial_state ∉ states then
    .error (.fsmError (("Initial state \x27" ++ initial_state) ++ ("\x27 not in states set")))
  else if ¬ (∀ x ∈ final_states, x ∈ states) then
    .error (.fsmError ("Final states must be a subset of states"))
  else validateTransitionEntries states alphabet transition_map

/-- `FSM.__init__`: validate, then store the five-tuple (lists are immutable
values here, so the source's defensive `.copy()` calls are identities) and set
`current_state` to the initial state. -/
def FSM.init (states : List String) (alphabet : List Char)
    (transition_map : List ((String × Char) × String)) (initial_state : String)
    (final_states : List String) : Except PyErr FSM :=
  match _validate_fsm_configuration states alphabet transition_map initial_state final_states with
  | .error e => .error e
  | .ok _ => .ok ⟨states, alphabet, transition_map, initial_state, final_states, initial_state⟩

/-- `FSM.reset`. -/
def FSM.reset (fsm : FSM) : FSM := { fsm with current_state := fsm.initial_state }

/-- `FSM.get_current_state`. -/
def FSM.get_current_state (fsm : FSM) : String := fsm.current_state

/-- `FSM.transition`: alphabet check, transition-map lookup, state update. -/
def FSM.transition (fsm : FSM) (symbol : Char) : Except PyErr FSM :=
  if symbol ∉ fsm.alphabet then
    .error (.fsmError (invalidSymbolMsg symbol fsm.alphabet))
  else
    match dictLookup fsm.transition_map (fsm.current_state, symbol) with
    | none => .error (.fsmError (undefinedTransitionMsg fsm.current_state symbol))
    | some next_state => .ok { fsm with current_state := next_state }

/-- The `for i, symbol in enumerate(input_string)` loop of `FSM.process`:
each `FSMError` from `transition` is wrapped with its position; the machine
returned alongside the error is the one reached before the failing step
(a failing `transition` performs no state update). -/
def FSM.runLoop : FSM → List Char → Nat → Option PyErr × FSM
  | fsm, [], _ => (none, fsm)
  | fsm, symbol :: rest, i =>
    match fsm.transition symbol with
    | .error (.fsmError msg) => (some (.fsmError (positionMsg i symbol msg)), fsm)
    | .error e => (some e, fsm)
    | .ok fsm' => fsm'.runLoop rest (i + 1)

/-- `FSM.process`: reset, empty-input early return, symbol loop, final
acceptance check.  Returns the result together with the machine (whose
`current_state` the source mutates in place). -/
def FSM.process (fsm : FSM) (input_string : List Char) : Except PyErr String × FSM :=
  let m := fsm.reset
  match input_string with
  | [] =>
    if m.current_state ∉ m.final_states then
      (.error (.fsmError (rejectedMsg m.current_state m.final_states)), m)
    else
      (.ok m.current_state, m)
  | _ :: _ =>
    match m.runLoop input_string 0 with
    | (some e, m') => (.error e, m')
    | (none, m') =>
      if m'.current_state ∉ m'.final_states then
        (.error (.fsmError (rejectedMsg m'.current_state m'.final_states)), m')
      else
        (.ok m'.current_state, m')

/-- The fixed states of the modulo-3 configuration in `ModThreeFSM.__init__`. -/
def mt_states : List String := ["S0", "S1", "S2"]

/-- The fixed alphabet of the modulo-3 configuration. -/
def mt_alphabet : List Char := ['0', '1']

/-- The fixed transition table of the modulo-3 configuration. -/
def mt_transitions : List ((String × Char) × String) :=
  [(("S0", '0'), "S0"), (("S0", '1'), "S1"),
   (("S1", '0'), "S2"), (("S1", '1'), "S0"),
   (("S2", '0'), "S1"), (("S2", '1'), "S2")]

/-- The fixed initial state of the modulo-3 configuration. -/
def mt_initial_state : String := "S0"

/-- The fixed accepting states of the modulo-3 configuration (all states). -/
def mt_final_states : List String := ["S0", "S1", "S2"]

/-- The `_state_to_remainder` dict of `ModThreeFSM`. -/
def state_to_remainder : List (String × Nat) := [("S0", 0), ("S1", 1), ("S2", 2)]

/-- The `ModThreeFSM` class: a wrapper around its `_fsm` engine instance. -/
structure ModThreeFSM where
  _fsm : FSM
deriving DecidableEq, Repr

/-- `ModThreeFSM.__init__`: build the engine on the fixed configuration,
re-raising any `FSMError` as a `ModThreeFSMError`. -/
def ModThreeFSM.init : Except PyErr ModThreeFSM :=
  match FSM.init mt_states mt_alphabet mt_transitions mt_initial_state mt_final_states with
  | .error (.fsmError msg) =>
    .error (.modThreeFSMError ("Failed to initialize ModThree FSM: " ++ msg))
  | .error e => .error e
  | .ok f => .ok ⟨f⟩

/-- Python values as seen by `ModThreeFSM.get_remainder`, which checks
`isinstance(binary_string, str)` on a dynamically typed argument. -/
inductive PyVal where
  | pyStr (s : List Char)
  | pyInt (n : Int)
  | pyNone
deriving DecidableEq, Repr

/-- Rendering of `type(x)` used in the non-string error message. -/
def pyTypeName : PyVal → String
  | .pyStr _ => "<class \x27str\x27>"
  | .pyInt _ => "<class \x27int\x27>"
  | .pyNone => "<class \x27NoneType\x27>"

/-- `set(binary_string) - set("01")`: the distinct non-binary characters of
the input, as computed for the invalid-character error message. -/
def invalid_chars (s : List Char) : List Char :=
  (s.filter fun c => decide (c ≠ '0' ∧ c ≠ '1')).dedup

/-- `ModThreeFSM.get_remainder`: type check, empty shortcut, binary-character
validation, then delegation to `FSM.process` and the state-to-remainder dict;
`FSMError`s from the engine are re-raised as `ModThreeFSMError`s. -/
def ModThreeFSM.get_remainder (m : ModThreeFSM) (binary_string : PyVal) :
    Except PyErr Nat :=
  match binary_string with
  | .pyStr s =>
    if s = [] then .ok 0
    else if ¬ (∀ c ∈ s, c = '0' ∨ c = '1') then
      .error (.modThreeFSMError
        ("Binary string contains invalid characters: " ++ toString (invalid_chars s)))
    else
      match (m._fsm.process s).1 with
      | .ok final_state =>
        match dictLookup state_to_remainder final_state with
        | some r => .ok r
        | none => .error (.keyError final_state)
      | .error (.fsmError msg) =>
        .error (.modThreeFSMError ("FSM processing failed: " ++ msg))
      | .error e => .error e
  | v => .error (.modThreeFSMError ("Input must be a string, got " ++ pyTypeName v))

/-- `ModThreeFSM.get_current_state`. -/
def ModThreeFSM.get_current_state (m : ModThreeFSM) : String :=
  m._fsm.get_current_state

/-- `ModThreeFSM.reset`. -/
def ModThreeFSM.reset (m : ModThreeFSM) : ModThreeFSM :=
  ⟨m._fsm.reset⟩

/-- The concrete engine instance produced by the fixed modulo-3
configuration. -/
def mtFSM : FSM :=
  ⟨mt_states, mt_alphabet, mt_transitions, mt_initial_state, mt_final_states, mt_initial_state⟩

/-- The concrete `ModThreeFSM` instance. -/
def mtModThree : ModThreeFSM := ⟨mtFSM⟩

instance {ε α : Type} [DecidableEq ε] [DecidableEq α] : DecidableEq (Except ε α) := fun a b =>
  match a, b with
  | .ok x, .ok y => if h : x = y then .isTrue (by rw [h]) else .isFalse (by simp [h])
  | .error x, .error y => if h : x = y then .isTrue (by rw [h]) else .isFalse (by simp [h])
  | .ok _, .error _ => .isFalse (by simp)
  | .error _, .ok _ => .isFalse (by simp)

/-- The state denoting remainder `r` in the fixed modulo-3 configuration. -/
def stateOfRem (r : Nat) : String :=
  match r with
  | 0 => "S0"
  | 1 => "S1"
  | _ => "S2"

/-- The integer value of a character list read as a binary numeral
(most-significant digit first); the value of the empty list is `0`. -/
def binVal (s : List Char) : Nat :=
  s.foldl (fun a c => 2 * a + (if c = '1' then 1 else 0)) 0

/-- A transition-map entry passes validation: its state key, symbol key and
target state belong to the declared sets. -/
def entryOK (states : List String) (alphabet : List Char)
    (e : (String × Char) × String) : Prop :=
  e.1.1 ∈ states ∧ e.1.2 ∈ alphabet ∧ e.2 ∈ states

instance (states : List String) (alphabet : List Char) (e : (String × Char) × String) :
    Decidable (entryOK states alphabet e) := by
  unfold entryOK
  infer_instance

/-- The error `validateTransitionEntries` raises for an offending entry:
the state key is checked first, then the symbol key, then the target. -/
def entryErr (states : List String) (alphabet : List Char)
    (e : (String × Char) × String) : PyErr :=
  if e.1.1 ∉ states then
    .fsmError (("State \x27" ++ e.1.1) ++ ("\x27 in transition map not in states set"))
  else if e.1.2 ∉ alphabet then
    .fsmError (("Symbol \x27" ++ e.1.2.toString) ++ ("\x27 in transition map not in alphabet"))
  else
    .fsmError (("Next state \x27" ++ e.2) ++ ("\x27 in transition map not in states set"))

/-- The state invariant of a machine: `current_state` and `initial_state`
are declared states, and every transition target is a declared state. -/
def FSMInv (fsm : FSM) : Prop :=
  fsm.current_state ∈ fsm.states ∧ fsm.initial_state ∈ fsm.states ∧
    ∀ e ∈ fsm.transition_map, e.2 ∈ fsm.states

/-- The complete two-state machine built in `TestFSM.setUp` of
`test_mod_three.py`. -/
def testFSM : FSM :=
  ⟨["S0", "S1"], ['a', 'b'],
    [(("S0", 'a'), "S1"), (("S0", 'b'), "S0"), (("S1", 'a'), "S0"), (("S1", 'b'), "S1")],
    "S0", ["S0", "S1"], "S0"⟩

/-- The machine with an incomplete transition map built in
`test_fsm_invalid_transition` of `test_mod_three.py`. -/
def partialFSM : FSM :=
  ⟨["S0", "S1"], ['a', 'b'], [(("S0", 'a'), "S1")], "S0", ["S0", "S1"], "S0"⟩

/-- The machine with a proper subset of accepting states built in
`test_fsm_final_state_not_accepted` of `test_mod_three.py`. -/
def rejFSM : FSM :=
  ⟨["S0", "S1", "S2"], ['a', 'b'],
    [(("S0", 'a'), "S1"), (("S0", 'b'), "S2"), (("S1", 'a'), "S0"),
     (("S1", 'b'), "S2"), (("S2", 'a'), "S2"), (("S2", 'b'), "S2")],
    "S0", ["S0"], "S0"⟩

/-- A successful dict lookup finds one of the entries. -/
theorem dictLookup_mem {α β : Type} [DecidableEq α] (m : List (α × β)) (k : α) (v : β)
    (h : dictLookup m k = some v) : (k, v) ∈ m := by
  induction m with
  | nil => simp [dictLookup] at h
  | cons p rest ih =>
    obtain ⟨k', v'⟩ := p
    by_cases hk : k = k'
    · subst hk
      simp [dictLookup] at h
      subst h
      exact List.mem_cons_self _ _
    · simp [dictLookup, hk] at h
      exact List.mem_cons_of_mem _ (ih h)

/-- A successful `transition` is exactly a lookup hit on an alphabet symbol,
and updates only `current_state`. -/
theorem transition_ok_eq (m m' : FSM) (c : Char) (h : m.transition c = .ok m') :
    ∃ next, dictLookup m.transition_map (m.current_state, c) = some next ∧
      m' = { m with current_state := next } ∧ c ∈ m.alphabet := by
  by_cases hc : c ∈ m.alphabet
  · simp only [FSM.transition, hc, not_true_eq_false, if_neg] at h
    · cases hl : dictLookup m.transition_map (m.current_state, c) with
      | none => rw [hl] at h; simp at h
      | some next =>
        rw [hl] at h
        simp at h
        exact ⟨next, rfl, h.symm, hc⟩
  · simp [FSM.transition, hc] at h

/-- A loop that completes with no error, continued over more input. -/
theorem runLoop_append (xs : List Char) (m : FSM) (ys : List Char) (i : Nat) (m' : FSM)
    (h : m.runLoop xs i = (none, m')) :
    m.runLoop (xs ++ ys) i = m'.runLoop ys (i + xs.length) := by
  induction xs generalizing m i with
  | nil =>
    simp only [FSM.runLoop, Prod.mk.injEq, true_and] at h
    subst h
    simp
  | cons c rest ih =>
    rw [List.cons_append]
    simp only [FSM.runLoop] at h ⊢
    cases ht : m.transition c with
    | error e =>
      cases e <;> simp [ht] at h
    | ok m2 =>
      simp only [ht] at h ⊢
      rw [ih m2 (i + 1) h]
      congr 1
      simp [List.length_cons]
      omega

/-- The loop never changes the five definition fields. -/
theorem runLoop_preserves_def (xs : List Char) (m : FSM) (i : Nat) :
    (m.runLoop xs i).2.states = m.states ∧ (m.runLoop xs i).2.alphabet = m.alphabet ∧
    (m.runLoop xs i).2.transition_map = m.transition_map ∧
    (m.runLoop xs i).2.initial_state = m.initial_state ∧
    (m.runLoop xs i).2.final_states = m.final_states := by
  induction xs generalizing m i with
  | nil => simp [FSM.runLoop]
  | cons c rest ih =>
    simp only [FSM.runLoop]
    cases ht : m.transition c with
    | error e => cases e <;> simp
    | ok m2 =>
      obtain ⟨next, -, rfl, -⟩ := transition_ok_eq m m2 c ht
      simpa using ih { m with current_state := next } (i + 1)

/-- `process` on a non-empty input: reset, loop, then the acceptance check. -/
theorem process_ne_nil (fsm : FSM) (s : List Char) (hs : s ≠ []) :
    fsm.process s =
      match (fsm.reset).runLoop s 0 with
      | (some e, m') => (.error e, m')
      | (none, m') =>
        if m'.current_state ∉ m'.final_states then
          (.error (.fsmError (rejectedMsg m'.current_state m'.final_states)), m')
        else
          (.ok m'.current_state, m') := by
  cases s with
  | nil => exact absurd rfl hs
  | cons c rest => rfl

/-- `process` on a non-empty input whose loop completes without error. -/
theorem process_of_runLoop_none (fsm : FSM) (s : List Char) (hs : s ≠ []) (m' : FSM)
    (h : (fsm.reset).runLoop s 0 = (none, m')) :
    fsm.process s =
      if m'.current_state ∉ m'.final_states then
        (.error (.fsmError (rejectedMsg m'.current_state m'.final_states)), m')
      else (.ok m'.current_state, m') := by
  rw [process_ne_nil fsm s hs, h]

/-- `process` on a non-empty input whose loop fails. -/
theorem process_of_runLoop_some (fsm : FSM) (s : List Char) (hs : s ≠ []) (e : PyErr) (m' : FSM)
    (h : (fsm.reset).runLoop s 0 = (some e, m')) :
    fsm.process s = (.error e, m') := by
  rw [process_ne_nil fsm s hs, h]

/-- `process` reads the machine only through `reset`: two machines with the
same reset behave identically. -/
theorem process_reset_eq (m1 m2 : FSM) (h : m1.reset = m2.reset) (s : List Char) :
    m1.process s = m2.process s := by
  unfold FSM.process
  rw [h]

/-- `process` never changes the five definition fields of the machine it
returns. -/
theorem process_preserves_def (fsm : FSM) (s : List Char) :
    (fsm.process s).2.states = fsm.states ∧ (fsm.process s).2.alphabet = fsm.alphabet ∧
    (fsm.process s).2.transition_map = fsm.transition_map ∧
    (fsm.process s).2.initial_state = fsm.initial_state ∧
    (fsm.process s).2.final_states = fsm.final_states := by
  cases s with
  | nil =>
    simp only [FSM.process]
    split <;> simp [FSM.reset]
  | cons c rest =>
    rw [process_ne_nil fsm (c :: rest) (by simp)]
    have h := runLoop_preserves_def (c :: rest) fsm.reset 0
    cases hr : (fsm.reset).runLoop (c :: rest) 0 with
    | mk oe m' =>
      rw [hr] at h
      simp only [FSM.reset] at h
      cases oe with
      | none =>
        simp only []
        split <;> simpa using h
      | some e => simpa using h

/-- The entry loop succeeds exactly when every entry passes. -/
theorem validateTransitionEntries_ok_iff (S : List String) (A : List Char)
    (T : List ((String × Char) × String)) :
    validateTransitionEntries S A T = .ok () ↔ ∀ e ∈ T, entryOK S A e := by
  induction T with
  | nil => simp [validateTransitionEntries]
  | cons e rest ih =>
    obtain ⟨⟨st, sy⟩, nx⟩ := e
    simp only [validateTransitionEntries]
    by_cases h1 : st ∈ S
    · by_cases h2 : sy ∈ A
      · by_cases h3 : nx ∈ S
        · simp only [h1, h2, h3, not_true_eq_false, if_false, ih,
            List.forall_mem_cons, entryOK]
          simp [h1, h2, h3]
        · simp [h1, h2, h3, List.forall_mem_cons, entryOK]
      · simp [h1, h2, List.forall_mem_cons, entryOK]
    · simp [h1, List.forall_mem_cons, entryOK]

/-- The entry loop reports the first offending entry, in insertion order. -/
theorem validateTransitionEntries_first_error (S : List String) (A : List Char)
    (T1 : List ((String × Char) × String)) (e : (String × Char) × String)
    (T2 : List ((String × Char) × String))
    (h1 : ∀ x ∈ T1, entryOK S A x) (h2 : ¬ entryOK S A e) :
    validateTransitionEntries S A (T1 ++ e :: T2) = .error (entryErr S A e) := by
  induction T1 with
  | nil =>
    obtain ⟨⟨st, sy⟩, nx⟩ := e
    simp only [List.nil_append, validateTransitionEntries, entryErr]
    by_cases ha : st ∈ S
    · by_cases hb : sy ∈ A
      · by_cases hc : nx ∈ S
        · exact absurd ⟨ha, hb, hc⟩ h2
        · simp [ha, hb, hc]
      · simp [ha, hb]
    · simp [ha]
  | cons x T1' ih =>
    obtain ⟨⟨st, sy⟩, nx⟩ := x
    obtain ⟨ha, hb, hc⟩ := h1 _ (List.mem_cons_self _ _)
    simp only [List.cons_append, validateTransitionEntries, ha, hb, hc,
      not_true_eq_false, if_false]
    exact ih fun y hy => h1 y (List.mem_cons_of_mem _ hy)

/-- A configuration that validates satisfies all five invariants. -/
theorem validate_ok_conditions (S : List String) (A : List Char)
    (T : List ((String × Char) × String)) (I : String) (F : List String)
    (h : _validate_fsm_configuration S A T I F = .ok ()) :
    S ≠ [] ∧ A ≠ [] ∧ I ∈ S ∧ (∀ x ∈ F, x ∈ S) ∧ ∀ e ∈ T, entryOK S A e := by
  unfold _validate_fsm_configuration at h
  split_ifs at h with h1 h2 h3 h4
  exact ⟨h1, h2, h3, h4, (validateTransitionEntries_ok_iff S A T).mp h⟩

/-- `stateOfRem` always lands in the modulo-3 accepting set. -/
theorem stateOfRem_mem (r : Nat) : stateOfRem r ∈ mt_final_states := by
  unfold stateOfRem
  split <;> simp [mt_final_states]

/-- The remainder table inverts `stateOfRem` on remainders below three. -/
theorem lookup_stateOfRem (r : Nat) (hr : r < 3) :
    dictLookup state_to_remainder (stateOfRem r) = some r := by
  interval_cases r <;> rfl

/-- One modulo-3 step: from the state denoting `r`, a binary digit leads to
the state denoting `(2*r + digit) % 3`. -/
theorem mt_transition_rem (r : Nat) (hr : r < 3) (c : Char) (hc : c = '0' ∨ c = '1') :
    FSM.transition { mtFSM with current_state := stateOfRem r } c =
      .ok { mtFSM with current_state := stateOfRem ((2 * r + (if c = '1' then 1 else 0)) % 3) } := by
  interval_cases r <;> rcases hc with rfl | rfl <;> decide

/-- The modulo-3 loop invariant: starting from the state denoting `a % 3`,
a binary string drives the machine to the state denoting the folded value. -/
theorem mt_runLoop (s : List Char) (hs : ∀ c ∈ s, c = '0' ∨ c = '1') (a i : Nat) :
    FSM.runLoop { mtFSM with current_state := stateOfRem (a % 3) } s i =
      (none,
        { mtFSM with
          current_state := stateOfRem
            (s.foldl (fun x c => 2 * x + (if c = '1' then 1 else 0)) a % 3) }) := by
  induction s generalizing a i with
  | nil => simp [FSM.runLoop]
  | cons c rest ih =>
    have hc := hs c (List.mem_cons_self c rest)
    have hrest : ∀ x ∈ rest, x = '0' ∨ x = '1' := fun x hx => hs x (List.mem_cons_of_mem c hx)
    have hmod : ∀ d : Nat, (2 * (a % 3) + d) % 3 = (2 * a + d) % 3 := fun d => by omega
    have ht := mt_transition_rem (a % 3) (Nat.mod_lt a (by omega)) c hc
    rw [hmod] at ht
    simp only [FSM.runLoop, ht, List.foldl_cons]
    exact ih hrest (2 * a + (if c = '1' then 1 else 0)) (i + 1)

/-- The loop preserves the state invariant. -/
theorem runLoop_inv (xs : List Char) (m : FSM) (i : Nat) (h : FSMInv m) :
    FSMInv (m.runLoop xs i).2 := by
  induction xs generalizing m i with
  | nil => simpa [FSM.runLoop] using h
  | cons c rest ih =>
    simp only [FSM.runLoop]
    cases ht : m.transition c with
    | error e => cases e <;> simpa using h
    | ok m2 =>
      apply ih
      obtain ⟨next, hl, rfl, -⟩ := transition_ok_eq m m2 c ht
      exact ⟨h.2.2 _ (dictLookup_mem _ _ _ hl), h.2.1, h.2.2⟩

/-- C1: for every string over the characters 0 and 1 (the empty string
included), `get_remainder` succeeds and returns the value of the string read
as a binary numeral modulo 3; the empty string returns 0 directly, whatever
engine the wrapper holds. -/
theorem C1_get_remainder_mod_three :
    ModThreeFSM.init = .ok mtModThree
    ∧ (∀ s : List Char, (∀ c ∈ s, c = '0' ∨ c = '1') →
        mtModThree.get_remainder (.pyStr s) = .ok (binVal s % 3))
    ∧ (∀ f : FSM, ModThreeFSM.get_remainder ⟨f⟩ (.pyStr []) = .ok 0) := by
  refine ⟨by decide, ?_, fun f => rfl⟩
  intro s hs
  cases s with
  | nil => rfl
  | cons c rest =>
    have hloop := mt_runLoop (c :: rest) hs 0 0
    have hl : mtFSM.reset.runLoop (c :: rest) 0 =
        (none,
          { mtFSM with
            current_state := stateOfRem
              (List.foldl (fun x c => 2 * x + (if c = '1' then 1 else 0)) 0 (c :: rest) % 3) }) :=
      hloop
    have hproc : (mtFSM.process (c :: rest)).1 = .ok (stateOfRem (binVal (c :: rest) % 3)) := by
      rw [process_of_runLoop_none mtFSM (c :: rest) (by simp) _ hl]
      split
      · exact absurd (stateOfRem_mem _) (by assumption)
      · rfl
    show ModThreeFSM.get_remainder ⟨mtFSM⟩ (.pyStr (c :: rest)) = _
    simp only [ModThreeFSM.get_remainder]
    rw [if_neg (show ¬(c :: rest = ([] : List Char)) by simp), if_neg (not_not_intro hs)]
    have hproc' : (({ _fsm := mtFSM } : ModThreeFSM)._fsm.process (c :: rest)).1
        = Except.ok (stateOfRem (binVal (c :: rest) % 3)) := hproc
    rw [hproc']
    simp [lookup_stateOfRem _ (show binVal (c :: rest) % 3 < 3 by omega)]

/-- Witness for C1 at the assignment example: `get_remainder "1101" = 1`. -/
theorem C1_witness :
    (∀ c ∈ (['1', '1', '0', '1'] : List Char), c = '0' ∨ c = '1')
    ∧ mtModThree.get_remainder (.pyStr ['1', '1', '0', '1']) = .ok 1 := by
  constructor
  · decide
  · have h := C1_get_remainder_mod_three.2.1 ['1', '1', '0', '1'] (by decide)
    rw [h]
    decide

/-- C2: in the fixed modulo-3 configuration, the transition from the state
denoting remainder `r` on digit `d` is the state denoting `(2*r + d) % 3`,
with the state-to-remainder correspondence given by the fixed table. -/
theorem C2_transition_table :
    ∀ (r : Fin 3) (d : Fin 2),
      FSM.transition { mtFSM with current_state := stateOfRem r.val }
          (if d.val = 1 then '1' else '0') =
        .ok { mtFSM with current_state := stateOfRem ((2 * r.val + d.val) % 3) }
      ∧ dictLookup state_to_remainder (stateOfRem r.val) = some r.val := by
  decide

/-- C4: running two inputs in sequence gives, on the second input, exactly
the behaviour of a freshly constructed instance of the same definition:
`process` resets first, so its outcome depends only on the input. -/
theorem C4_run_history_independence :
    ∀ (S : List String) (A : List Char) (T : List ((String × Char) × String))
      (I : String) (F : List String) (fsm : FSM) (s1 s2 : List Char),
      FSM.init S A T I F = .ok fsm →
      (fsm.process s1).2.process s2 = fsm.process s2 := by
  intro S A T I F fsm s1 s2 hinit
  obtain ⟨h1, h2, h3, h4, h5⟩ := process_preserves_def fsm s1
  apply process_reset_eq
  ext
  all_goals simp [FSM.reset, h1, h2, h3, h4, h5]

/-- Witness for C4 on the two-state test machine. -/
theorem C4_witness :
    FSM.init ["S0", "S1"] ['a', 'b']
        [(("S0", 'a'), "S1"), (("S0", 'b'), "S0"), (("S1", 'a'), "S0"), (("S1", 'b'), "S1")]
        "S0" ["S0", "S1"] = .ok testFSM
    ∧ (testFSM.process ['a']).2.process ['a', 'b'] = testFSM.process ['a', 'b'] := by
  refine ⟨by decide, ?_⟩
  exact C4_run_history_independence ["S0", "S1"] ['a', 'b']
    [(("S0", 'a'), "S1"), (("S0", 'b'), "S0"), (("S1", 'a'), "S0"), (("S1", 'b'), "S1")]
    "S0" ["S0", "S1"] testFSM ['a'] ['a', 'b'] (by decide)

/-- C5: construction validates the five-tuple in source order -- empty
states, empty alphabet, start-state membership, accepting-subset, then the
transition entries in insertion order, each entry checked state key first,
symbol key second, target third -- failing with the config error of the
first violation; on success `current_state` is the start state. -/
theorem C5_init_validation_order :
    ∀ (S : List String) (A : List Char) (T : List ((String × Char) × String))
      (I : String) (F : List String),
      (S = [] → FSM.init S A T I F = .error (.fsmError ("States set cannot be empty")))
      ∧ (S ≠ [] → A = [] → FSM.init S A T I F = .error (.fsmError ("Alphabet set cannot be empty")))
      ∧ (S ≠ [] → A ≠ [] → I ∉ S →
          FSM.init S A T I F =
            .error (.fsmError (("Initial state \x27" ++ I) ++ ("\x27 not in states set"))))
      ∧ (S ≠ [] → A ≠ [] → I ∈ S → ¬ (∀ x ∈ F, x ∈ S) →
          FSM.init S A T I F = .error (.fsmError ("Final states must be a subset of states")))
      ∧ (∀ T1 e T2, S ≠ [] → A ≠ [] → I ∈ S → (∀ x ∈ F, x ∈ S) →
          T = T1 ++ e :: T2 → (∀ x ∈ T1, entryOK S A x) → ¬ entryOK S A e →
          FSM.init S A T I F = .error (entryErr S A e))
      ∧ (S ≠ [] → A ≠ [] → I ∈ S → (∀ x ∈ F, x ∈ S) → (∀ e ∈ T, entryOK S A e) →
          FSM.init S A T I F = .ok ⟨S, A, T, I, F, I⟩) := by
  intro S A T I F
  refine ⟨?_, ?_, ?_, ?_, ?_, ?_⟩
  · intro h1
    simp [FSM.init, _validate_fsm_configuration, h1]
  · intro h1 h2
    simp [FSM.init, _validate_fsm_configuration, h1, h2]
  · intro h1 h2 h3
    simp [FSM.init, _validate_fsm_configuration, h1, h2, h3]
  · intro h1 h2 h3 h4
    simp [FSM.init, _validate_fsm_configuration, h1, h2, h3, h4]
  · intro T1 e T2 h1 h2 h3 h4 hT hok hbad
    subst hT
    have h4' : ¬ ∃ x ∈ F, x ∉ S := by push_neg; exact h4
    have hv := validateTransitionEntries_first_error S A T1 e T2 hok hbad
    simp [FSM.init, _validate_fsm_configuration, h1, h2, h3, h4, h4', hv]
  · intro h1 h2 h3 h4 h5
    have h4' : ¬ ∃ x ∈ F, x ∉ S := by push_neg; exact h4
    have hv := (validateTransitionEntries_ok_iff S A T).mpr h5
    simp [FSM.init, _validate_fsm_configuration, h1, h2, h3, h4, h4', hv]

/-- Witness for C5: concrete configurations hitting each validation outcome. -/
theorem C5_witness :
    FSM.init [] ['a'] [] "S0" [] = .error (.fsmError ("States set cannot be empty"))
    ∧ FSM.init ["S0"] [] [] "S0" [] = .error (.fsmError ("Alphabet set cannot be empty"))
    ∧ FSM.init ["S0"] ['a'] [] "S1" [] =
        .error (.fsmError (("Initial state \x27" ++ "S1") ++ ("\x27 not in states set")))
    ∧ FSM.init ["S0"] ['a'] [] "S0" ["S1"] =
        .error (.fsmError ("Final states must be a subset of states"))
    ∧ FSM.init ["S0"] ['a'] [(("S0", 'a'), "SX")] "S0" ["S0"] =
        .error (entryErr ["S0"] ['a'] (("S0", 'a'), "SX"))
    ∧ FSM.init ["S0"] ['a'] [(("S0", 'a'), "S0")] "S0" ["S0"] =
        .ok ⟨["S0"], ['a'], [(("S0", 'a'), "S0")], "S0", ["S0"], "S0"⟩ := by
  refine ⟨(C5_init_validation_order [] ['a'] [] "S0" []).1 rfl,
    (C5_init_validation_order ["S0"] [] [] "S0" []).2.1 (by decide) rfl,
    (C5_init_validation_order ["S0"] ['a'] [] "S1" []).2.2.1 (by decide) (by decide) (by decide),
    (C5_init_validation_order ["S0"] ['a'] [] "S0" ["S1"]).2.2.2.1
      (by decide) (by decide) (by decide) (by decide),
    (C5_init_validation_order ["S0"] ['a'] [(("S0", 'a'), "SX")] "S0" ["S0"]).2.2.2.2.1
      [] (("S0", 'a'), "SX") [] (by decide) (by decide) (by decide) (by decide) rfl
      (by decide) (by decide),
    (C5_init_validation_order ["S0"] ['a'] [(("S0", 'a'), "S0")] "S0" ["S0"]).2.2.2.2.2
      (by decide) (by decide) (by decide) (by decide) (by decide)⟩

/-- C6: a step fails with the invalid-symbol error exactly on symbols outside
the alphabet, fails with the undefined-transition error exactly on alphabet
symbols with no registered transition from the current state, and otherwise
only replaces `current_state` by the mapped target; reading the state and
resetting are the only other state operations. -/
theorem C6_transition_characterization :
    ∀ (fsm : FSM) (symbol : Char),
      (symbol ∉ fsm.alphabet →
        fsm.transition symbol = .error (.fsmError (invalidSymbolMsg symbol fsm.alphabet)))
      ∧ (symbol ∈ fsm.alphabet →
          dictLookup fsm.transition_map (fsm.current_state, symbol) = none →
          fsm.transition symbol =
            .error (.fsmError (undefinedTransitionMsg fsm.current_state symbol)))
      ∧ (∀ next, symbol ∈ fsm.alphabet →
          dictLookup fsm.transition_map (fsm.current_state, symbol) = some next →
          fsm.transition symbol = .ok { fsm with current_state := next })
      ∧ (∀ fsm', fsm.transition symbol = .ok fsm' →
          fsm'.states = fsm.states ∧ fsm'.alphabet = fsm.alphabet ∧
          fsm'.transition_map = fsm.transition_map ∧ fsm'.initial_state = fsm.initial_state ∧
          fsm'.final_states = fsm.final_states)
      ∧ fsm.get_current_state = fsm.current_state
      ∧ fsm.reset = { fsm with current_state := fsm.initial_state } := by
  intro fsm symbol
  refine ⟨?_, ?_, ?_, ?_, rfl, rfl⟩
  · intro h
    simp [FSM.transition, h]
  · intro h hl
    simp [FSM.transition, h, hl]
  · intro next h hl
    simp [FSM.transition, h, hl]
  · intro fsm' h
    obtain ⟨next, -, rfl, -⟩ := transition_ok_eq fsm fsm' symbol h
    simp

/-- Witness for C6 on the concrete test machines. -/
theorem C6_witness :
    rejFSM.transition 'c' = .error (.fsmError (invalidSymbolMsg 'c' rejFSM.alphabet))
    ∧ partialFSM.transition 'b' =
        .error (.fsmError (undefinedTransitionMsg partialFSM.current_state 'b'))
    ∧ testFSM.transition 'a' = .ok { testFSM with current_state := "S1" }
    ∧ ({ testFSM with current_state := "S1" } : FSM).states = testFSM.states := by
  refine ⟨(C6_transition_characterization rejFSM 'c').1 (by decide),
    (C6_transition_characterization partialFSM 'b').2.1 (by decide) (by decide),
    (C6_transition_characterization testFSM 'a').2.2.1 ("S1") (by decide) (by decide),
    ((C6_transition_characterization testFSM 'a').2.2.2.1 _
      ((C6_transition_characterization testFSM 'a').2.2.1 ("S1") (by decide) (by decide))).1⟩

/-- C7: when a step inside `process` fails, the propagated error wraps the
underlying message with the zero-based position of the offending symbol, and
the machine is left exactly in the state reached by the successful steps. -/
theorem C7_process_position_error :
    ∀ (fsm : FSM) (T1 : List Char) (c : Char) (T2 : List Char) (m' : FSM) (msg : String),
      (fsm.reset).runLoop T1 0 = (none, m') →
      m'.transition c = .error (.fsmError msg) →
      fsm.process (T1 ++ c :: T2) = (.error (.fsmError (positionMsg T1.length c msg)), m') := by
  intro fsm T1 c T2 m' msg hok hfail
  have happ := runLoop_append T1 fsm.reset (c :: T2) 0 m' hok
  have hall : (fsm.reset).runLoop (T1 ++ c :: T2) 0 =
      (some (.fsmError (positionMsg T1.length c msg)), m') := by
    rw [happ]
    have h0 : (0 : Nat) + T1.length = T1.length := by omega
    rw [h0]
    simp only [FSM.runLoop, hfail]
  exact process_of_runLoop_some fsm (T1 ++ c :: T2) (by cases T1 <;> simp) _ m' hall

/-- Witness for C7: on the incomplete machine, input "ab" fails at position 1. -/
theorem C7_witness :
    (partialFSM.reset).runLoop ['a'] 0 = (none, { partialFSM with current_state := "S1" })
    ∧ partialFSM.process ['a', 'b'] =
        (.error (.fsmError (positionMsg 1 'b' (undefinedTransitionMsg ("S1") 'b'))),
          { partialFSM with current_state := "S1" }) := by
  have h1 : (partialFSM.reset).runLoop ['a'] 0 =
      (none, { partialFSM with current_state := "S1" }) := by decide
  have h2 : ({ partialFSM with current_state := "S1" } : FSM).transition 'b' =
      .error (.fsmError (undefinedTransitionMsg ("S1") 'b')) := by decide
  exact ⟨h1, C7_process_position_error partialFSM ['a'] 'b' [] _ _ h1 h2⟩

/-- C9: when the loop finishes without a per-symbol failure (the empty input
included), `process` rejects with an error naming the terminal state exactly
when that state is not accepting, and returns the terminal state otherwise. -/
theorem C9_reject_or_accept :
    ∀ (fsm : FSM) (s : List Char) (m' : FSM),
      (fsm.reset).runLoop s 0 = (none, m') →
      ((m'.current_state ∉ m'.final_states →
          fsm.process s =
            (.error (.fsmError (rejectedMsg m'.current_state m'.final_states)), m'))
        ∧ (m'.current_state ∈ m'.final_states →
            fsm.process s = (.ok m'.current_state, m'))) := by
  intro fsm s m' h
  cases s with
  | nil =>
    simp only [FSM.runLoop, Prod.mk.injEq, true_and] at h
    subst h
    constructor
    · intro hrej
      simp only [FSM.process]
      rw [if_pos hrej]
    · intro hacc
      simp only [FSM.process]
      rw [if_neg (not_not_intro hacc)]
  | cons c rest =>
    rw [process_of_runLoop_none fsm (c :: rest) (by simp) m' h]
    constructor
    · intro hrej
      rw [if_pos hrej]
    · intro hacc
      rw [if_neg (not_not_intro hacc)]

/-- Witness for C9 on the machine whose only accepting state is S0. -/
theorem C9_witness :
    (rejFSM.reset).runLoop ['a'] 0 = (none, { rejFSM with current_state := "S1" })
    ∧ rejFSM.process ['a'] =
        (.error (.fsmError (rejectedMsg ("S1") ["S0"])), { rejFSM with current_state := "S1" })
    ∧ rejFSM.process ['a', 'a'] = (.ok ("S0"), { rejFSM with current_state := "S0" }) := by
  have h1 : (rejFSM.reset).runLoop ['a'] 0 = (none, { rejFSM with current_state := "S1" }) := by
    decide
  have h2 : (rejFSM.reset).runLoop ['a', 'a'] 0 = (none, { rejFSM with current_state := "S0" }) := by
    decide
  exact ⟨h1, (C9_reject_or_accept rejFSM ['a'] _ h1).1 (by decide),
    (C9_reject_or_accept rejFSM ['a', 'a'] _ h2).2 (by decide)⟩

/-- C10: after a successful construction the current state is the start state
and satisfies the state invariant, and the invariant (in particular
membership of `current_state` in the declared states) is preserved by every
reset, by every successful step, and by `process` whether it succeeds or
fails. -/
theorem C10_current_state_invariant :
    ∀ (S : List String) (A : List Char) (T : List ((String × Char) × String))
      (I : String) (F : List String) (fsm : FSM),
      FSM.init S A T I F = .ok fsm →
      (fsm.current_state = fsm.initial_state ∧ FSMInv fsm)
      ∧ (∀ m : FSM, FSMInv m → FSMInv m.reset)
      ∧ (∀ (m m' : FSM) (c : Char), FSMInv m → m.transition c = .ok m' → FSMInv m')
      ∧ (∀ (m : FSM) (s : List Char), FSMInv m → FSMInv (m.process s).2) := by
  intro S A T I F fsm hinit
  have hresetInv : ∀ m : FSM, FSMInv m → FSMInv m.reset := by
    intro m hm
    exact ⟨hm.2.1, hm.2.1, hm.2.2⟩
  have htransInv : ∀ (m m' : FSM) (c : Char), FSMInv m → m.transition c = .ok m' → FSMInv m' := by
    intro m m' c hm ht
    obtain ⟨next, hl, rfl, -⟩ := transition_ok_eq m m' c ht
    exact ⟨hm.2.2 _ (dictLookup_mem _ _ _ hl), hm.2.1, hm.2.2⟩
  have hprocInv : ∀ (m : FSM) (s : List Char), FSMInv m → FSMInv (m.process s).2 := by
    intro m s hm
    cases s with
    | nil =>
      simp only [FSM.process]
      split <;> exact hresetInv m hm
    | cons c rest =>
      rw [process_ne_nil m (c :: rest) (by simp)]
      have hloopInv := runLoop_inv (c :: rest) m.reset 0 (hresetInv m hm)
      cases hr : (m.reset).runLoop (c :: rest) 0 with
      | mk oe m' =>
        rw [hr] at hloopInv
        cases oe with
        | none =>
          simp only []
          split <;> exact hloopInv
        | some e => exact hloopInv
  refine ⟨?_, hresetInv, htransInv, hprocInv⟩
  unfold FSM.init at hinit
  cases hv : _validate_fsm_configuration S A T I F with
  | error e =>
    rw [hv] at hinit
    simp at hinit
  | ok u =>
    cases u
    rw [hv] at hinit
    simp only [Except.ok.injEq] at hinit
    subst hinit
    obtain ⟨-, -, hI, -, hT⟩ := validate_ok_conditions S A T I F hv
    exact ⟨rfl, hI, hI, fun e he => (hT e he).2.2⟩

/-- Witness for C10 at the modulo-3 configuration. -/
theorem C10_witness :
    FSM.init mt_states mt_alphabet mt_transitions mt_initial_state mt_final_states = .ok mtFSM
    ∧ (mtFSM.current_state = mtFSM.initial_state ∧ FSMInv mtFSM) := by
  have h : FSM.init mt_states mt_alphabet mt_transitions mt_initial_state mt_final_states
      = .ok mtFSM := by decide
  exact ⟨h, (C10_current_state_invariant mt_states mt_alphabet mt_transitions
    mt_initial_state mt_final_states mtFSM h).1⟩

/-- C8: `get_remainder` rejects every non-string input with the type-error
message, and rejects every string containing a character outside 0/1 with the
invalid-character error reporting the distinct offending characters -- in
both cases whatever engine the wrapper holds, i.e. before the engine runs. -/
theorem C8_input_validation :
    ∀ (f : FSM) (v : PyVal) (s : List Char),
      ((∀ t : List Char, v ≠ .pyStr t) →
        ModThreeFSM.get_remainder ⟨f⟩ v =
          .error (.modThreeFSMError ("Input must be a string, got " ++ pyTypeName v)))
      ∧ (¬ (∀ c ∈ s, c = '0' ∨ c = '1') →
          ModThreeFSM.get_remainder ⟨f⟩ (.pyStr s) =
            .error (.modThreeFSMError
              ("Binary string contains invalid characters: " ++ toString (invalid_chars s)))
          ∧ invalid_chars s ≠ []
          ∧ (∀ c : Char, c ∈ invalid_chars s ↔ c ∈ s ∧ ¬ (c = '0' ∨ c = '1'))
          ∧ (invalid_chars s).Nodup) := by
  intro f v s
  constructor
  · intro hv
    cases v with
    | pyStr t => exact absurd rfl (hv t)
    | pyInt n => rfl
    | pyNone => rfl
  · intro hbad
    have hchar : ∀ c : Char, c ∈ invalid_chars s ↔ c ∈ s ∧ ¬ (c = '0' ∨ c = '1') := by
      intro c
      simp [invalid_chars, List.mem_dedup, List.mem_filter, decide_eq_true_eq, not_or]
    obtain ⟨c, hcs, hcbad⟩ : ∃ c ∈ s, ¬ (c = '0' ∨ c = '1') := by
      push_neg at hbad ⊢
      simpa [not_or] using hbad
    refine ⟨?_, ?_, hchar, List.nodup_dedup _⟩
    · show ModThreeFSM.get_remainder ⟨f⟩ (.pyStr s) = _
      simp only [ModThreeFSM.get_remainder]
      rw [if_neg (List.ne_nil_of_mem hcs), if_pos hbad]
    · exact List.ne_nil_of_mem ((hchar c).mpr ⟨hcs, hcbad⟩)

/-- Witness for C8 at the spec scenarios: integer input 12 and string "102". -/
theorem C8_witness :
    ModThreeFSM.get_remainder ⟨mtFSM⟩ (.pyInt 12) =
      .error (.modThreeFSMError ("Input must be a string, got " ++ pyTypeName (.pyInt 12)))
    ∧ ModThreeFSM.get_remainder ⟨mtFSM⟩ (.pyStr ['1', '0', '2']) =
        .error (.modThreeFSMError
          ("Binary string contains invalid characters: "
            ++ toString (invalid_chars ['1', '0', '2']))) := by
  refine ⟨(C8_input_validation mtFSM (.pyInt 12) []).1 (fun t => by simp), ?_⟩
  exact ((C8_input_validation mtFSM (.pyInt 12) ['1', '0', '2']).2 (by decide)).1

/-- C3 counterexample: an invalid-symbol failure and a rejection failure are
both raised as the same `FSMError` class whose only payload is the message,
so no message-blind discriminator can tell the two kinds apart. -/
theorem C3_counterexample :
    rejFSM.transition 'c' = .error (.fsmError (invalidSymbolMsg 'c' rejFSM.alphabet))
    ∧ (rejFSM.process ['a']).1 = .error (.fsmError (rejectedMsg ("S1") ["S0"]))
    ∧ ¬ ∃ kind : PyErr → Bool,
        (∀ m1 m2 : String, kind (.fsmError m1) = kind (.fsmError m2))
        ∧ kind (.fsmError (invalidSymbolMsg 'c' rejFSM.alphabet)) ≠
            kind (.fsmError (rejectedMsg ("S1") ["S0"])) := by
  refine ⟨by decide, by decide, ?_⟩
  rintro ⟨kind, hblind, hne⟩
  exact hne (hblind _ _)

/-- C3 amended: every engine-level kind is raised as the single class
`FSMError` and the mod-three type error as `ModThreeFSMError`; the two
classes are distinguishable, and within a class the kinds carry distinct
human-readable messages, shown here at representative concrete failures. -/
theorem C3_amended_single_class_distinct_messages :
    FSM.init ([] : List String) ['a'] [] "S0" [] =
      .error (.fsmError ("States set cannot be empty"))
    ∧ rejFSM.transition 'c' = .error (.fsmError (invalidSymbolMsg 'c' rejFSM.alphabet))
    ∧ partialFSM.transition 'b' = .error (.fsmError (undefinedTransitionMsg ("S0") 'b'))
    ∧ (rejFSM.process ['a']).1 = .error (.fsmError (rejectedMsg ("S1") ["S0"]))
    ∧ ModThreeFSM.get_remainder ⟨mtFSM⟩ (.pyInt 12) =
        .error (.modThreeFSMError ("Input must be a string, got <class \x27int\x27>"))
    ∧ List.Pairwise (fun a b => a ≠ b)
        [("States set cannot be empty" : String), invalidSymbolMsg 'c' rejFSM.alphabet,
          undefinedTransitionMsg ("S0") 'b', rejectedMsg ("S1") ["S0"]]
    ∧ PyErr.fsmError (rejectedMsg ("S1") ["S0"]) ≠
        PyErr.modThreeFSMError (rejectedMsg ("S1") ["S0"]) := by
  refine ⟨by decide, by decide, by decide, by decide, by decide, by decide, by decide⟩
